import Mathlib

/-!
Verification of the br_mongodb_orm document-mapping layer.

Strings are embedded as lists of Unicode code points (`List Nat`), so the
character-class tests of the source's regular expressions become arithmetic
predicates on code points.
-/

namespace BrMongoOrm

/-- ASCII `[A-Z]`, the regex character class used by `camel_to_snake`. -/
def isUpperCode (n : Nat) : Bool := decide (65 ≤ n ∧ n ≤ 90)

/-- ASCII `[a-z]`. -/
def isLowerCode (n : Nat) : Bool := decide (97 ≤ n ∧ n ≤ 122)

/-- ASCII `[0-9]`. -/
def isDigitCode (n : Nat) : Bool := decide (48 ≤ n ∧ n ≤ 57)

/-- Python `str.lower` restricted to the ASCII range, per code point:
uppercase `A`–`Z` shift by 32, everything else is unchanged. -/
def lowerCode (n : Nat) : Nat := if isUpperCode n then n + 32 else n

/-- One left-to-right pass of `re.sub('(.)([A-Z][a-z]+)', r'\x5c1_\x5c2', s)`
(from `camel_to_snake` in src/test_improvements.py): at each position, if the
current character is any character but a newline (code 10), the next is
`[A-Z]` and the one after `[a-z]`, insert `_` (code 95) between the first and
second, emit the greedy `[a-z]+` run, and resume scanning after the run;
otherwise emit one character and move on.  The `fuel` argument only bounds the
recursion; `fuel ≥ length` always holds at the call site in `subAcronym` and
each step consumes at least one list element per unit of fuel. -/
def subAcronymGo : Nat → List Nat → List Nat
  | _, [] => []
  | 0, l => l
  | fuel + 1, c1 :: c2 :: c3 :: rest =>
      if c1 ≠ 10 ∧ isUpperCode c2 ∧ isLowerCode c3 then
        c1 :: 95 :: c2 :: c3 :: (rest.takeWhile isLowerCode
          ++ subAcronymGo fuel (rest.dropWhile isLowerCode))
      else
        c1 :: subAcronymGo fuel (c2 :: c3 :: rest)
  | _, l => l

/-- `re.sub('(.)([A-Z][a-z]+)', r'\x5c1_\x5c2', name)`, the first substitution
of `camel_to_snake`. -/
def subAcronym (l : List Nat) : List Nat := subAcronymGo l.length l

/-- `re.sub('([a-z0-9])([A-Z])', r'\x5c1_\x5c2', s1)`, the second substitution
of `camel_to_snake`: insert `_` between a lowercase letter or digit and an
uppercase letter, resuming after the matched pair. -/
def subBoundary : List Nat → List Nat
  | c1 :: c2 :: rest =>
      if (isLowerCode c1 || isDigitCode c1) && isUpperCode c2 then
        c1 :: 95 :: c2 :: subBoundary rest
      else
        c1 :: subBoundary (c2 :: rest)
  | l => l

/-- `camel_to_snake` from src/test_improvements.py: two regex substitution
passes followed by `.lower()`. -/
def camel_to_snake (name : List Nat) : List Nat :=
  (subBoundary (subAcronym name)).map lowerCode

/-- Code points of a Lean string literal, for readable statements. -/
def strCodes (s : String) : List Nat := s.data.map Char.toNat

/-- An attribute value in a `Meta` configuration class, as written in
src/example.py (string-valued or boolean-valued options). -/
inductive MetaValue where
  | strVal : String → MetaValue
  | boolVal : Bool → MetaValue
deriving DecidableEq, Repr

/-- The `CustomCollection.Meta` configuration object of src/example.py
(lines 54-57), as the ordered list of (option name, value) attributes the
declaration sets: `collection_name = "my_custom_collection"`,
`auto_create_indexes = False`, `use_auto_id = False`. -/
def customCollectionMeta : List (String × MetaValue) :=
  [("collection_name", MetaValue.strVal "my_custom_collection"),
   ("auto_create_indexes", MetaValue.boolVal false),
   ("use_auto_id", MetaValue.boolVal false)]

/-- Modelled from the spec: the collection-name binding step of the model
initializer (the `br_mongodb_orm` package itself is not among the source
files; only its callers in src/example.py are).  Per spec §4.1, an explicit
override supplied at declaration time is used verbatim and the camel-to-snake
algorithm is skipped; otherwise the name is derived by `camel_to_snake`. -/
def resolve_collection_name (override : Option (List Nat)) (typeName : List Nat) :
    List Nat :=
  match override with
  | some n => n
  | none => camel_to_snake typeName

/-- The error taxonomy of spec §7. -/
inductive OrmError where
  | validationError
  | documentNotFoundError
  | notInitialized
  | indexConflict
  | storageUnavailable
  | duplicateKey
deriving DecidableEq, Repr

/-- Modelled from the spec: `bulk_create` of the query/command executor (the
`br_mongodb_orm` implementation is not among the source files).  Per spec
§4.5, every item of the batch is validated first; identifiers are assigned
per item and a single batched write appends all documents, but if any item
fails validation the whole batch is rejected before any write: the state
(next sequential identifier, stored documents) is returned unchanged together
with a `ValidationError`.  `valid` stands for the schema-validation check. -/
def bulk_create {α : Type} (valid : α → Bool) (nextFree : Nat)
    (store : List (Nat × α)) (items : List α) :
    (Nat × List (Nat × α)) × Except OrmError (List (Nat × α)) :=
  if items.all valid then
    let instances := items.enum.map (fun p => (nextFree + p.fst, p.snd))
    ((nextFree + items.length, store ++ instances), Except.ok instances)
  else
    ((nextFree, store), Except.error OrmError.validationError)

/-- Modelled from the spec: `get_by_id` of the query/command executor (the
`br_mongodb_orm` implementation is not among the source files; its behaviour
on a missing document is demonstrated in src/example.py lines 357-363).  Per
spec §4.5, it is a single-document lookup by the configured identifier field,
returning an empty result when no document matches; `transportOk` stands for
the storage boundary being reachable — when it is not, the call fails with
`StorageUnavailable`. -/
def get_by_id {α : Type} (transportOk : Bool) (store : List (Nat × α))
    (i : Nat) : Except OrmError (Option α) :=
  if transportOk then
    Except.ok ((store.find? (fun p => p.fst == i)).map Prod.snd)
  else
    Except.error OrmError.storageUnavailable

/-- A hydrated model instance: sequential identifier, the caller-declared
fields (opaque payload), and the two framework-managed timestamps of spec §3,
with time as a logical clock. -/
structure Instance where
  id : Nat
  payload : Nat
  created_at : Nat
  updated_at : Nat
deriving DecidableEq, Repr

/-- Modelled from the spec: `save` of the query/command executor (the
`br_mongodb_orm` implementation is not among the source files; its use is
demonstrated in src/example.py lines 188-191).  Per spec §4.5, `save` is a
full-document update keyed by the identifier that refreshes the modification
timestamp (`updated_at := now`) and raises `DocumentNotFoundError` when the
identifier no longer exists; it returns the new store and the written
instance. -/
def save (now : Nat) (store : List Instance) (inst : Instance) :
    Except OrmError (List Instance × Instance) :=
  if store.any (fun d => d.id == inst.id) then
    let written : Instance := { inst with updated_at := now }
    Except.ok (store.map (fun d => if d.id == inst.id then written else d), written)
  else
    Except.error OrmError.documentNotFoundError

/-- An index specification of spec §3/§4.3: field names with a sort
direction each, plus a uniqueness flag. -/
structure IndexSpec where
  keys : List (String × Int)
  unique : Bool
deriving DecidableEq, Repr

/-- Modelled from the spec: `ensure_indexes` of the index manager (the
`br_mongodb_orm` implementation is not among the source files).  Per spec
§4.3, each declared specification is compared against the existing indexes:
same key pattern with matching options is skipped, same key pattern with
different options raises `IndexConflict` carrying the offending spec together
with the untouched index list, and an absent specification is created.
Existing indexes are never dropped or altered. -/
def ensure_indexes : List IndexSpec → List IndexSpec →
    Except (IndexSpec × List IndexSpec) (List IndexSpec)
  | existing, [] => Except.ok existing
  | existing, s :: rest =>
      match existing.find? (fun e => e.keys == s.keys) with
      | some e =>
          if e.unique == s.unique then ensure_indexes existing rest
          else Except.error (s, existing)
      | none => ensure_indexes (existing ++ [s]) rest

/-- Modelled from the spec: `next_id` of the identifier sequencer (the
`br_mongodb_orm` implementation is not among the source files).  Per spec
§4.2/§3, a durable per-collection counter holds the last-issued integer id,
and each issuance is one atomic fetch-and-increment returning the new value;
the counter value is the state. -/
def next_id (counter : Nat) : Nat × Nat := (counter + 1, counter + 1)

/-- A run of `n` consecutive issuances starting from counter state
`counter`, returning the final counter and the issued ids in order.  Because
each issuance is a single atomic step at the counter store (spec §4.2), any
interleaving of concurrent callers — and any split of the run across process
restarts, the counter being durable — is such a sequence. -/
def issueRun : Nat → Nat → Nat × List Nat
  | counter, 0 => (counter, [])
  | counter, n + 1 =>
      let p := next_id counter
      let q := issueRun p.snd n
      (q.fst, p.fst :: q.snd)

/-! ## Helper lemmas -/

theorem isUpperCode_lowerCode (n : Nat) : isUpperCode (lowerCode n) = false := by
  simp only [lowerCode]
  split
  · rename_i h
    simp only [isUpperCode, decide_eq_true_eq] at h
    simp only [isUpperCode, decide_eq_false_iff_not]
    omega
  · rename_i h
    simpa using h

theorem subAcronymGo_of_no_upper (fuel : Nat) (l : List Nat)
    (h : ∀ c ∈ l, isUpperCode c = false) : subAcronymGo fuel l = l := by
  induction fuel generalizing l with
  | zero => cases l <;> rfl
  | succ fuel ih =>
    match l with
    | [] => rfl
    | [c1] => rfl
    | [c1, c2] => rfl
    | c1 :: c2 :: c3 :: rest =>
      have h2 : isUpperCode c2 = false := h c2 (by simp)
      rw [subAcronymGo, if_neg (by simp [h2])]
      have := ih (c2 :: c3 :: rest) (fun c hc => h c (List.mem_cons_of_mem _ hc))
      rw [this]

theorem subBoundary_of_no_upper :
    ∀ l : List Nat, (∀ c ∈ l, isUpperCode c = false) → subBoundary l = l := by
  intro l
  induction l with
  | nil => intro _; rfl
  | cons c1 rest ih =>
    intro h
    cases rest with
    | nil => rfl
    | cons c2 rest2 =>
      have h2 : isUpperCode c2 = false := h c2 (by simp)
      rw [subBoundary, if_neg (by simp [h2])]
      rw [ih (fun c hc => h c (List.mem_cons_of_mem _ hc))]

theorem map_lowerCode_of_no_upper :
    ∀ l : List Nat, (∀ c ∈ l, isUpperCode c = false) → l.map lowerCode = l := by
  intro l
  induction l with
  | nil => intro _; rfl
  | cons c rest ih =>
    intro h
    have hc : isUpperCode c = false := h c (by simp)
    have hlc : lowerCode c = c := by simp [lowerCode, hc]
    rw [List.map_cons, hlc, ih (fun x hx => h x (List.mem_cons_of_mem _ hx))]

theorem issueRun_eq (counter n : Nat) :
    issueRun counter n = (counter + n, List.range' (counter + 1) n) := by
  induction n generalizing counter with
  | zero => rfl
  | succ n ih =>
    simp only [issueRun, next_id, ih, List.range'_succ]
    have h1 : counter + 1 + n = counter + (n + 1) := by omega
    rw [h1]

/-! ## Claim theorems -/

/-- C1: `camel_to_snake` inserts a segment boundary before an uppercase
letter that follows a lowercase letter or digit and before a run of uppercase
letters followed by a lowercase letter, then lowercases; in particular the
table of src/test_improvements.py holds: User→user, BlogPost→blog_post,
ShoppingCart→shopping_cart, APIKey→api_key, XMLDocument→xml_document,
UserProfile→user_profile, HTTPResponse→http_response, SimpleModel→
simple_model, A→a, ABC→abc. -/
theorem camel_to_snake_table :
    camel_to_snake (strCodes "User") = strCodes "user" ∧
    camel_to_snake (strCodes "BlogPost") = strCodes "blog_post" ∧
    camel_to_snake (strCodes "ShoppingCart") = strCodes "shopping_cart" ∧
    camel_to_snake (strCodes "APIKey") = strCodes "api_key" ∧
    camel_to_snake (strCodes "XMLDocument") = strCodes "xml_document" ∧
    camel_to_snake (strCodes "UserProfile") = strCodes "user_profile" ∧
    camel_to_snake (strCodes "HTTPResponse") = strCodes "http_response" ∧
    camel_to_snake (strCodes "SimpleModel") = strCodes "simple_model" ∧
    camel_to_snake (strCodes "A") = strCodes "a" ∧
    camel_to_snake (strCodes "ABC") = strCodes "abc" := by
  decide

/-- C2: when an explicit collection-name override is supplied at declaration
time, the binding uses exactly that override string verbatim and the
camel-to-snake derivation is skipped; at the concrete `CustomCollection`
declaration of src/example.py the bound name is "my_custom_collection",
which the derivation algorithm would not have produced. -/
theorem collection_override_verbatim :
    (∀ override typeName : List Nat,
      resolve_collection_name (some override) typeName = override) ∧
    resolve_collection_name (some (strCodes "my_custom_collection"))
      (strCodes "CustomCollection") = strCodes "my_custom_collection" ∧
    camel_to_snake (strCodes "CustomCollection") ≠
      strCodes "my_custom_collection" := by
  exact ⟨fun _ _ => rfl, rfl, by decide⟩

/-- C3 counterexample: the per-type configuration object in
src/example.py (CustomCollection.Meta, lines 54-57) does not use an option
named use_sequential_id; the identifier-strategy switch it sets is named
use_auto_id. -/
theorem meta_use_sequential_id_absent :
    "use_sequential_id" ∉ customCollectionMeta.map Prod.fst ∧
    ("use_auto_id", MetaValue.boolVal false) ∈ customCollectionMeta := by
  decide

/-- C3 (amended): the per-type configuration object recognizes the option
named use_auto_id as the switch between framework-assigned sequential integer
identifiers and the database's native identifier (use_auto_id = False selects
the native _id), alongside collection_name and auto_create_indexes. -/
theorem meta_recognizes_use_auto_id :
    customCollectionMeta.map Prod.fst =
      ["collection_name", "auto_create_indexes", "use_auto_id"] ∧
    ("use_auto_id", MetaValue.boolVal false) ∈ customCollectionMeta ∧
    ("collection_name", MetaValue.strVal "my_custom_collection")
      ∈ customCollectionMeta ∧
    ("auto_create_indexes", MetaValue.boolVal false) ∈ customCollectionMeta := by
  decide

/-- C4: whenever at least one item of the batch fails validation,
`bulk_create` raises `ValidationError` and performs zero writes: the next
free identifier and the stored documents are returned unchanged. -/
theorem bulk_create_rejects_invalid_batch {α : Type} (valid : α → Bool)
    (nextFree : Nat) (store : List (Nat × α)) (items : List α)
    (h : ∃ x ∈ items, valid x = false) :
    bulk_create valid nextFree store items =
      ((nextFree, store), Except.error OrmError.validationError) := by
  have hall : items.all valid = false := by
    rcases h with ⟨x, hx, hvx⟩
    cases hal : items.all valid with
    | false => rfl
    | true => exact absurd (List.all_eq_true.mp hal x hx) (by simp [hvx])
  simp [bulk_create, hall]

theorem bulk_create_rejects_invalid_batch_witness :
    bulk_create (fun n => decide (n ≠ 0)) 7 [(1, 5)] [1, 0, 2] =
      ((7, [(1, 5)]), Except.error OrmError.validationError) :=
  bulk_create_rejects_invalid_batch (fun n => decide (n ≠ 0)) 7 [(1, 5)]
    [1, 0, 2] ⟨0, by decide, by decide⟩

/-- C5: when no document carries the requested identifier, `get_by_id`
returns an empty result (`none`) and not an error; with the storage boundary
reachable it never raises, and `StorageUnavailable` is raised exactly on
transport failure. -/
theorem get_by_id_absent_returns_none {α : Type} (store : List (Nat × α))
    (i : Nat) :
    ((∀ p ∈ store, p.fst ≠ i) → get_by_id true store i = Except.ok none) ∧
    (∃ r, get_by_id true store i = Except.ok r) ∧
    get_by_id false store i = Except.error OrmError.storageUnavailable := by
  refine ⟨?_, ⟨_, rfl⟩, rfl⟩
  intro h
  have hnone : store.find? (fun p => p.fst == i) = none :=
    List.find?_eq_none.mpr (fun p hp => by simpa using h p hp)
  simp [get_by_id, hnone]

theorem get_by_id_absent_returns_none_witness :
    get_by_id true [(3, (30 : Nat))] 5 = Except.ok none :=
  (get_by_id_absent_returns_none [(3, (30 : Nat))] 5).1 (by decide)

/-- C6: when some stored document carries the instance's identifier, `save`
succeeds and the written document keeps the instance's identifier, payload and
creation timestamp while its modification timestamp is refreshed to the
current time; when no stored document carries the identifier, `save` raises
`DocumentNotFoundError`. -/
theorem save_refreshes_updated_at_only (now : Nat) (store : List Instance)
    (inst : Instance) :
    ((∃ d ∈ store, d.id = inst.id) →
      ∃ st w, save now store inst = Except.ok (st, w) ∧
        w.id = inst.id ∧ w.payload = inst.payload ∧
        w.created_at = inst.created_at ∧ w.updated_at = now) ∧
    ((∀ d ∈ store, d.id ≠ inst.id) →
      save now store inst = Except.error OrmError.documentNotFoundError) := by
  constructor
  · intro h
    have hany : store.any (fun d => d.id == inst.id) = true := by
      rcases h with ⟨d, hd, hid⟩
      exact List.any_eq_true.mpr ⟨d, hd, by simp [hid]⟩
    refine ⟨store.map (fun d => if d.id == inst.id then
        { inst with updated_at := now } else d),
      { inst with updated_at := now }, ?_, rfl, rfl, rfl, rfl⟩
    simp [save, hany]
  · intro h
    have hany : store.any (fun d => d.id == inst.id) = false := by
      cases hal : store.any (fun d => d.id == inst.id) with
      | false => rfl
      | true =>
        rcases List.any_eq_true.mp hal with ⟨d, hd, hid⟩
        exact absurd (by simpa using hid) (h d hd)
    simp [save, hany]

theorem save_refreshes_updated_at_only_witness :
    (∃ st w, save 5 [(⟨1, 10, 2, 3⟩ : Instance)] ⟨1, 11, 2, 4⟩ =
        Except.ok (st, w) ∧
      w.id = 1 ∧ w.payload = 11 ∧ w.created_at = 2 ∧ w.updated_at = 5) ∧
    save 5 ([] : List Instance) ⟨1, 11, 2, 4⟩ =
      Except.error OrmError.documentNotFoundError :=
  ⟨(save_refreshes_updated_at_only 5 [⟨1, 10, 2, 3⟩] ⟨1, 11, 2, 4⟩).1
      ⟨⟨1, 10, 2, 3⟩, by decide, rfl⟩,
   (save_refreshes_updated_at_only 5 [] ⟨1, 11, 2, 4⟩).2 (by simp)⟩

/-- C7: when the first declared index specification has the same key pattern
as an existing index but different options (uniqueness mismatch),
`ensure_indexes` raises `IndexConflict` naming the offending specification,
and the existing index list is returned untouched: nothing is dropped,
recreated or altered. -/
theorem ensure_indexes_conflict_detected (existing : List IndexSpec)
    (s e : IndexSpec) (rest : List IndexSpec)
    (hfind : existing.find? (fun x => x.keys == s.keys) = some e)
    (hopt : e.unique ≠ s.unique) :
    ensure_indexes existing (s :: rest) = Except.error (s, existing) := by
  have hne : (e.unique == s.unique) = false := by
    simpa using hopt
  simp [ensure_indexes, hfind, hne]

theorem ensure_indexes_conflict_detected_witness :
    ensure_indexes [⟨[("email", 1)], false⟩] [⟨[("email", 1)], true⟩] =
      Except.error (⟨[("email", 1)], true⟩, [⟨[("email", 1)], false⟩]) :=
  ensure_indexes_conflict_detected [⟨[("email", 1)], false⟩]
    ⟨[("email", 1)], true⟩ ⟨[("email", 1)], false⟩ [] (by decide) (by decide)

/-- C9: over any run of issuances against one collection's counter, the
sequence of identifiers issued by `next_id` is strictly increasing and free
of duplicates, every issued identifier exceeds every identifier issued before
the run began (no value is ever reused), and the counter advances by exactly
the number of issuances — each issuance being one atomic step at the counter
store, this covers any interleaving of concurrent callers and any split of
the run across process restarts. -/
theorem next_id_strictly_increasing (counter n : Nat) :
    ((issueRun counter n).snd).Pairwise (· < ·) ∧
    ((issueRun counter n).snd).Nodup ∧
    (∀ i ∈ (issueRun counter n).snd, counter < i) ∧
    (issueRun counter n).fst = counter + n := by
  rw [issueRun_eq]
  refine ⟨List.pairwise_lt_range' _ _, List.nodup_range' _ _, ?_, rfl⟩
  intro i hi
  have := List.mem_range'_1.mp hi
  omega

/-- C10: `camel_to_snake` is idempotent — its output contains no ASCII
uppercase code point, so neither substitution pass matches again and the
lowercasing pass is the identity. -/
theorem camel_to_snake_idempotent (s : List Nat) :
    camel_to_snake (camel_to_snake s) = camel_to_snake s := by
  have h : ∀ c ∈ camel_to_snake s, isUpperCode c = false := by
    intro c hc
    simp only [camel_to_snake, List.mem_map] at hc
    obtain ⟨a, _, rfl⟩ := hc
    exact isUpperCode_lowerCode a
  show (subBoundary (subAcronym (camel_to_snake s))).map lowerCode =
    camel_to_snake s
  rw [subAcronym, subAcronymGo_of_no_upper _ _ h, subBoundary_of_no_upper _ h,
    map_lowerCode_of_no_upper _ h]

end BrMongoOrm
